import Mathlib

/-!
Verification development for the chrome-devtools-cli repository.

The development shallowly embeds the command decoder (CLI-line tokenizer and
schema-driven parameter parser), the session-runtime command loop with its
execution guard, and the accessibility snapshot baseline/diff subsystem.
Strings are modelled as lists of characters (`Str`), JavaScript values as the
inductive `JsValue`, and fallible operations return `Except`.

Functions whose source file is part of the repository snapshot are translated
directly from it.  External collaborators (the zod validation library, the
JSON.parse builtin, the JavaScript Number coercion, the Mutex class, and the
accessibilityDiff utility module, none of which are included in the sources)
are modelled from the specification; each such definition carries a doc
comment starting with `Modelled from the spec:`.
-/

namespace ChromeCli

/-- Strings are modelled as lists of characters. -/
abbrev Str := List Char

/-- JavaScript whitespace test used by the tokenizer and by trimming
(the regular expression character class for whitespace, restricted to the
ASCII whitespace characters that can occur in session input lines). -/
def isJsSpace (c : Char) : Bool :=
  c = ' ' || c = '\t' || c = '\n' || c = '\r' ||
  c = Char.ofNat 11 || c = Char.ofNat 12

/-- JavaScript String.prototype.trim on the modelled whitespace class. -/
def jsTrim (s : Str) : Str :=
  ((s.dropWhile isJsSpace).reverse.dropWhile isJsSpace).reverse

/-- A JavaScript runtime value, as far as the decoder and the snapshot
subsystem observe values: strings, numbers (restricted to the integers,
the only numeric values the modelled fragment produces), booleans, null,
arrays, and plain objects (ordered key/value lists, later keys shadowing
earlier ones exactly when noted at use sites). -/
inductive JsValue where
  | vstr (s : Str)
  | vnum (n : Int)
  | vbool (b : Bool)
  | vnull
  | varr (items : List JsValue)
  | vobj (fields : List (Str × JsValue))

mutual

/-- Structural decidable equality on modelled JavaScript values. -/
def JsValue.decEq : (a b : JsValue) → Decidable (a = b)
  | .vstr x, .vstr y =>
    if h : x = y then .isTrue (by rw [h]) else .isFalse (by simp [h])
  | .vnum x, .vnum y =>
    if h : x = y then .isTrue (by rw [h]) else .isFalse (by simp [h])
  | .vbool x, .vbool y =>
    if h : x = y then .isTrue (by rw [h]) else .isFalse (by simp [h])
  | .vnull, .vnull => .isTrue rfl
  | .varr xs, .varr ys =>
    match JsValue.decEqList xs ys with
    | .isTrue h => .isTrue (by rw [h])
    | .isFalse h => .isFalse (by simp [h])
  | .vobj xs, .vobj ys =>
    match JsValue.decEqFields xs ys with
    | .isTrue h => .isTrue (by rw [h])
    | .isFalse h => .isFalse (by simp [h])
  | .vstr _, .vnum _ => .isFalse (fun h => nomatch h)
  | .vstr _, .vbool _ => .isFalse (fun h => nomatch h)
  | .vstr _, .vnull => .isFalse (fun h => nomatch h)
  | .vstr _, .varr _ => .isFalse (fun h => nomatch h)
  | .vstr _, .vobj _ => .isFalse (fun h => nomatch h)
  | .vnum _, .vstr _ => .isFalse (fun h => nomatch h)
  | .vnum _, .vbool _ => .isFalse (fun h => nomatch h)
  | .vnum _, .vnull => .isFalse (fun h => nomatch h)
  | .vnum _, .varr _ => .isFalse (fun h => nomatch h)
  | .vnum _, .vobj _ => .isFalse (fun h => nomatch h)
  | .vbool _, .vstr _ => .isFalse (fun h => nomatch h)
  | .vbool _, .vnum _ => .isFalse (fun h => nomatch h)
  | .vbool _, .vnull => .isFalse (fun h => nomatch h)
  | .vbool _, .varr _ => .isFalse (fun h => nomatch h)
  | .vbool _, .vobj _ => .isFalse (fun h => nomatch h)
  | .vnull, .vstr _ => .isFalse (fun h => nomatch h)
  | .vnull, .vnum _ => .isFalse (fun h => nomatch h)
  | .vnull, .vbool _ => .isFalse (fun h => nomatch h)
  | .vnull, .varr _ => .isFalse (fun h => nomatch h)
  | .vnull, .vobj _ => .isFalse (fun h => nomatch h)
  | .varr _, .vstr _ => .isFalse (fun h => nomatch h)
  | .varr _, .vnum _ => .isFalse (fun h => nomatch h)
  | .varr _, .vbool _ => .isFalse (fun h => nomatch h)
  | .varr _, .vnull => .isFalse (fun h => nomatch h)
  | .varr _, .vobj _ => .isFalse (fun h => nomatch h)
  | .vobj _, .vstr _ => .isFalse (fun h => nomatch h)
  | .vobj _, .vnum _ => .isFalse (fun h => nomatch h)
  | .vobj _, .vbool _ => .isFalse (fun h => nomatch h)
  | .vobj _, .vnull => .isFalse (fun h => nomatch h)
  | .vobj _, .varr _ => .isFalse (fun h => nomatch h)

/-- Decidable equality on lists of modelled JavaScript values. -/
def JsValue.decEqList : (xs ys : List JsValue) → Decidable (xs = ys)
  | [], [] => .isTrue rfl
  | [], _ :: _ => .isFalse (fun h => nomatch h)
  | _ :: _, [] => .isFalse (fun h => nomatch h)
  | x :: xs, y :: ys =>
    match JsValue.decEq x y, JsValue.decEqList xs ys with
    | .isTrue h1, .isTrue h2 => .isTrue (by rw [h1, h2])
    | .isFalse h1, _ => .isFalse (by simp [h1])
    | _, .isFalse h2 => .isFalse (by simp [h2])

/-- Decidable equality on field lists of modelled JavaScript objects. -/
def JsValue.decEqFields : (xs ys : List (Str × JsValue)) → Decidable (xs = ys)
  | [], [] => .isTrue rfl
  | [], _ :: _ => .isFalse (fun h => nomatch h)
  | _ :: _, [] => .isFalse (fun h => nomatch h)
  | (k, v) :: xs, (k2, v2) :: ys =>
    if hk : k = k2 then
      match JsValue.decEq v v2, JsValue.decEqFields xs ys with
      | .isTrue h1, .isTrue h2 => .isTrue (by rw [hk, h1, h2])
      | .isFalse h1, _ => .isFalse (by simp [h1])
      | _, .isFalse h2 => .isFalse (by simp [h2])
    else .isFalse (by simp [hk])

end

instance : DecidableEq JsValue := JsValue.decEq

instance : Inhabited JsValue := ⟨JsValue.vnull⟩

instance {ε α : Type} [DecidableEq ε] [DecidableEq α] :
    DecidableEq (Except ε α) := fun a b =>
  match a, b with
  | .ok x, .ok y =>
    if h : x = y then .isTrue (by rw [h]) else .isFalse (by simp [h])
  | .error x, .error y =>
    if h : x = y then .isTrue (by rw [h]) else .isFalse (by simp [h])
  | .ok _, .error _ => .isFalse (fun h => nomatch h)
  | .error _, .ok _ => .isFalse (fun h => nomatch h)

/-- JavaScript truthiness on modelled values (objects and arrays are always
truthy, empty string / zero / false / null are falsy). -/
def jsTruthy : JsValue → Bool
  | .vstr s => !s.isEmpty
  | .vnum n => n ≠ 0
  | .vbool b => b
  | .vnull => false
  | .varr _ => true
  | .vobj _ => true

/-- First-match association lookup (JavaScript object property read for the
association lists built by the decoder, whose keys are unique). -/
def assocGet {α : Type} : List (Str × α) → Str → Option α
  | [], _ => none
  | (k, v) :: rest, key => if k = key then some v else assocGet rest key

/-- Association update: replace the first binding of the key in place, or
append a fresh binding (JavaScript object property write / Map.set). -/
def assocSet {α : Type} : List (Str × α) → Str → α → List (Str × α)
  | [], key, v => [(key, v)]
  | (k, w) :: rest, key, v =>
    if k = key then (key, v) :: rest else (k, w) :: assocSet rest key v

/-- Raw parameter mappings produced by the command decoder. -/
abbrev Params := List (Str × JsValue)

/-! ## CLI-line tokenizer (from `cliApp.ts`, `tokenizeCliLine`) -/

/-- The decode error thrown for an unterminated quote. -/
def unterminatedQuoteMsg : Str := ("Unterminated quote in CLI line").toList

/-- The tokenizer's `push` helper: flush the current token if non-empty. -/
def tokPush (tokens : List Str) (current : Str) : List Str :=
  if current.isEmpty then tokens else tokens ++ [current]

/-- Character loop of `tokenizeCliLine`: state is the accumulated tokens,
the current token, the open quote (if any), and the escaping flag. -/
def tokenizeCliLineAux : List Char → List Str → Str → Option Char → Bool →
    Except Str (List Str)
  | [], tokens, current, quoteState, escaping =>
    match quoteState with
    | some _ => .error unterminatedQuoteMsg
    | none =>
      let current := if escaping then current ++ ['\\'] else current
      .ok (tokPush tokens current)
  | c :: cs, tokens, current, quoteState, escaping =>
    if escaping then
      tokenizeCliLineAux cs tokens (current ++ [c]) quoteState false
    else if c = '\\' then
      tokenizeCliLineAux cs tokens current quoteState true
    else
      match quoteState with
      | some q =>
        if c = q then tokenizeCliLineAux cs tokens current none false
        else tokenizeCliLineAux cs tokens (current ++ [c]) (some q) false
      | none =>
        if c = '"' || c = Char.ofNat 39 then
          tokenizeCliLineAux cs tokens current (some c) false
        else if isJsSpace c then
          tokenizeCliLineAux cs (tokPush tokens current) [] none false
        else
          tokenizeCliLineAux cs tokens (current ++ [c]) none false

/-- `tokenizeCliLine`: shell-like tokenization of one CLI session line.
Whitespace separates tokens, double or single quotes group a token and are
stripped, backslash escapes the next character, and an unterminated quote is
a decode error. -/
def tokenizeCliLine (line : Str) : Except Str (List Str) :=
  tokenizeCliLineAux line [] [] none false

/-! ## Parameter schemas (the zod shapes observed through `unwrapZodSchema`) -/

/-- A parameter schema, as the decoder observes it through the zod `_def`
structure: base shapes (string, number, boolean, enum, array, object) under
optional/default/effects wrappers.  `ztrimNonempty` is the trimmed,
minimum-length-one string shape used by `take_change_snapshot`'s keys. -/
inductive ZodTy where
  | zstring
  | ztrimNonempty
  | znumber
  | zboolean
  | zenum (values : List Str)
  | zarray (inner : ZodTy)
  | zobject
  | zoptional (inner : ZodTy)
  | zdefault (value : JsValue) (inner : ZodTy)
  | zeffects (inner : ZodTy)
deriving DecidableEq

/-- The base type name of an unwrapped schema (the zod `typeName`). -/
inductive ZodTyName where
  | tstring
  | tnumber
  | tboolean
  | tenum
  | tarray
  | tobject
deriving DecidableEq

/-- `typeName` of a schema node (wrappers keep their inner name only after
unwrapping; this is queried on unwrapped schemas). -/
def zodTyName : ZodTy → ZodTyName
  | .zstring => .tstring
  | .ztrimNonempty => .tstring
  | .znumber => .tnumber
  | .zboolean => .tboolean
  | .zenum _ => .tenum
  | .zarray _ => .tarray
  | .zobject => .tobject
  | .zoptional inner => zodTyName inner
  | .zdefault _ inner => zodTyName inner
  | .zeffects inner => zodTyName inner

/-- Result of `unwrapZodSchema`: the inner schema, whether the parameter is
required, and its declared default value (if any). -/
structure UnwrappedSchema where
  schema : ZodTy
  required : Bool
  defaultValue : Option JsValue

/-- `unwrapZodSchema`: peel optional/default/effects wrappers; optional and
default both mark the parameter as not required, and default records the
declared default value. -/
def unwrapZodSchema : ZodTy → UnwrappedSchema
  | .zoptional inner =>
    let u := unwrapZodSchema inner
    { u with required := false }
  | .zdefault d inner =>
    let u := unwrapZodSchema inner
    { u with required := false, defaultValue := some d }
  | .zeffects inner => unwrapZodSchema inner
  | ty => { schema := ty, required := true, defaultValue := none }

/-- `schemaIsPositionalFriendly`: required scalar/enum shapes are filled
positionally. -/
def schemaIsPositionalFriendly (schema : ZodTy) : Bool :=
  let u := (unwrapZodSchema schema).schema
  zodTyName u = .tstring || zodTyName u = .tnumber || zodTyName u = .tenum

/-! ## Scalar coercion helpers -/

/-- `kebabToCamelCase`: replace each `-x` (for alphanumeric `x`) by `X`,
scanning left to right. -/
def kebabToCamelCase : Str → Str
  | [] => []
  | ['-'] => ['-']
  | '-' :: c2 :: rest2 =>
    if c2.isAlpha || c2.isDigit then
      Char.toUpper c2 :: kebabToCamelCase rest2
    else
      '-' :: kebabToCamelCase (c2 :: rest2)
  | c :: rest => c :: kebabToCamelCase rest

/-- `parseBooleanLike`: accept true/1/yes and false/0/no after trimming and
lowercasing; anything else is a decode error naming the flag. -/
def parseBooleanLike (value : Str) (label : Str) : Except Str Bool :=
  let normalized := (jsTrim value).map Char.toLower
  if normalized = ("true").toList || normalized = ("1").toList ||
      normalized = ("yes").toList then
    .ok true
  else if normalized = ("false").toList || normalized = ("0").toList ||
      normalized = ("no").toList then
    .ok false
  else
    .error (("Invalid boolean for ").toList ++ label ++ (": ").toList ++ value)

/-- Modelled from the spec: the JavaScript `Number(...)` coercion used for
numeric parameters (a builtin, not part of the sources), restricted to
optionally-signed decimal integer literals; the empty (or all-whitespace)
string coerces to zero, and other forms are outside the modelled fragment
and map to `none` (treated as non-finite by the caller). -/
def jsNumberInt (s : Str) : Option Int :=
  let t := jsTrim s
  match t with
  | [] => some 0
  | '-' :: ds =>
    if ds ≠ [] && ds.all Char.isDigit then
      some (-(Int.ofNat (ds.foldl (fun n c => n * 10 + c.toNat - 48) 0)))
    else none
  | '+' :: ds =>
    if ds ≠ [] && ds.all Char.isDigit then
      some (Int.ofNat (ds.foldl (fun n c => n * 10 + c.toNat - 48) 0))
    else none
  | ds =>
    if ds.all Char.isDigit then
      some (Int.ofNat (ds.foldl (fun n c => n * 10 + c.toNat - 48) 0))
    else none

/-! ## JSON parsing (modelled) -/

/-- Modelled JSON decode error message for truncated input. -/
def jsonUnexpectedEndMsg : Str := ("Unexpected end of JSON input").toList

/-- Modelled JSON decode error message for an unexpected character. -/
def jsonUnexpectedTokenMsg : Str := ("Unexpected token in JSON").toList

/-- Modelled from the spec: the string scanner of the JSON.parse builtin
(not part of the sources); reads up to the closing double quote, handling
the backslash escapes for quote and backslash (other escapes are outside
the modelled fragment). -/
def parseJsonStringAux : Str → Str → Except Str (Str × Str)
  | [], _ => .error jsonUnexpectedEndMsg
  | c :: rest, acc =>
    if c = '"' then .ok (acc.reverse, rest)
    else if c = '\\' then
      match rest with
      | [] => .error jsonUnexpectedEndMsg
      | e :: rest2 =>
        if e = '"' || e = '\\' then parseJsonStringAux rest2 (e :: acc)
        else .error jsonUnexpectedTokenMsg
    else parseJsonStringAux rest (c :: acc)

mutual

/-- Modelled from the spec: the value grammar of the JSON.parse builtin
(not part of the sources) — strings, signed decimal integers, booleans,
null, arrays, and objects; fuel bounds the recursion depth and is chosen
large enough at the entry point. -/
def parseJsonValueAux : Nat → Str → Except Str (JsValue × Str)
  | 0, _ => .error jsonUnexpectedEndMsg
  | fuel + 1, s =>
    match s.dropWhile isJsSpace with
    | [] => .error jsonUnexpectedEndMsg
    | c :: rest =>
      if c = '"' then
        match parseJsonStringAux rest [] with
        | .error e => .error e
        | .ok (str, r) => .ok (.vstr str, r)
      else if c = Char.ofNat 123 then
        parseJsonObjectAux fuel rest true []
      else if c = '[' then
        parseJsonArrayAux fuel rest true []
      else if c = 't' && (("rue").toList).isPrefixOf rest then
        .ok (.vbool true, rest.drop 3)
      else if c = 'f' && (("alse").toList).isPrefixOf rest then
        .ok (.vbool false, rest.drop 4)
      else if c = 'n' && (("ull").toList).isPrefixOf rest then
        .ok (.vnull, rest.drop 3)
      else if c = '-' || c.isDigit then
        let ds := (c :: rest).takeWhile (fun d => d.isDigit || d = '-')
        let r := (c :: rest).dropWhile (fun d => d.isDigit || d = '-')
        match jsNumberInt ds with
        | some n => .ok (.vnum n, r)
        | none => .error jsonUnexpectedTokenMsg
      else .error jsonUnexpectedTokenMsg

/-- Modelled from the spec: the object member loop of the JSON.parse
builtin; duplicate keys overwrite in place, as a JavaScript object literal
does. -/
def parseJsonObjectAux :
    Nat → Str → Bool → List (Str × JsValue) → Except Str (JsValue × Str)
  | 0, _, _, _ => .error jsonUnexpectedEndMsg
  | fuel + 1, s, isFirst, acc =>
    match s.dropWhile isJsSpace with
    | [] => .error jsonUnexpectedEndMsg
    | c :: rest =>
      if c = Char.ofNat 125 && isFirst then .ok (.vobj acc, rest)
      else if c = '"' then
        match parseJsonStringAux rest [] with
        | .error e => .error e
        | .ok (key, afterKey) =>
          match afterKey.dropWhile isJsSpace with
          | ':' :: afterColon =>
            match parseJsonValueAux fuel afterColon with
            | .error e => .error e
            | .ok (v, afterValue) =>
              match afterValue.dropWhile isJsSpace with
              | ',' :: afterComma =>
                parseJsonObjectAux fuel afterComma false (assocSet acc key v)
              | d :: afterBrace =>
                if d = Char.ofNat 125 then
                  .ok (.vobj (assocSet acc key v), afterBrace)
                else .error jsonUnexpectedTokenMsg
              | [] => .error jsonUnexpectedEndMsg
          | _ => .error jsonUnexpectedTokenMsg
      else .error jsonUnexpectedTokenMsg

/-- Modelled from the spec: the array element loop of the JSON.parse
builtin. -/
def parseJsonArrayAux :
    Nat → Str → Bool → List JsValue → Except Str (JsValue × Str)
  | 0, _, _, _ => .error jsonUnexpectedEndMsg
  | fuel + 1, s, isFirst, acc =>
    match s.dropWhile isJsSpace with
    | [] => .error jsonUnexpectedEndMsg
    | c :: rest =>
      if c = ']' && isFirst then .ok (.varr acc.reverse, rest)
      else
        match parseJsonValueAux fuel s with
        | .error e => .error e
        | .ok (v, afterValue) =>
          match afterValue.dropWhile isJsSpace with
          | ',' :: afterComma => parseJsonArrayAux fuel afterComma false (v :: acc)
          | ']' :: afterBracket => .ok (.varr (v :: acc).reverse, afterBracket)
          | _ => .error jsonUnexpectedTokenMsg

end

/-- Modelled from the spec: the JSON.parse builtin on one whole input
string — parse one value and require only whitespace to remain. -/
def jsonParse (s : Str) : Except Str JsValue :=
  match parseJsonValueAux (s.length + 4) s with
  | .error e => .error e
  | .ok (v, rest) =>
    if (rest.dropWhile isJsSpace).isEmpty then .ok v
    else .error jsonUnexpectedTokenMsg

/-- `parseJsonObject`: parse a JSON object argument, wrapping any failure
(including a non-object result) in a labeled decode error. -/
def parseJsonObject (arg : Str) (label : Str) :
    Except Str (List (Str × JsValue)) :=
  let wrap := fun (inner : Str) =>
    ("Failed to parse ").toList ++ label ++ (" as JSON object: ").toList ++ inner
  match jsonParse arg with
  | .error e => .error (wrap e)
  | .ok (.vobj fields) => .ok fields
  | .ok _ => .error (wrap (label ++ (" must be a JSON object").toList))

/-- `parseJsonArray`: parse a JSON array argument, wrapping any failure
(including a non-array result) in a labeled decode error. -/
def parseJsonArray (arg : Str) (label : Str) : Except Str (List JsValue) :=
  let wrap := fun (inner : Str) =>
    ("Failed to parse ").toList ++ label ++ (" as JSON array: ").toList ++ inner
  match jsonParse arg with
  | .error e => .error (wrap e)
  | .ok (.varr items) => .ok items
  | .ok _ => .error (wrap (label ++ (" must be a JSON array").toList))

/-! ## Token-to-parameter coercion (from `cliApp.ts`) -/

/-- `coerceCliValue`: coerce one raw token to the shape demanded by the
(unwrapped) schema of the parameter named `key`. -/
def coerceCliValue (schema : ZodTy) (key : Str) (raw : Str) :
    Except Str JsValue :=
  let label := ("--").toList ++ key
  match (unwrapZodSchema schema).schema with
  | .zstring => .ok (.vstr raw)
  | .ztrimNonempty => .ok (.vstr raw)
  | .znumber =>
    match jsNumberInt raw with
    | some n => .ok (.vnum n)
    | none =>
      .error (("Invalid number for ").toList ++ label ++ (": ").toList ++ raw)
  | .zboolean =>
    match parseBooleanLike raw label with
    | .error e => .error e
    | .ok b => .ok (.vbool b)
  | .zenum _ => .ok (.vstr raw)
  | .zobject =>
    match parseJsonObject raw label with
    | .error e => .error e
    | .ok fields => .ok (.vobj fields)
  | .zarray inner =>
    let trimmed := jsTrim raw
    if trimmed.head? = some '[' then
      match parseJsonArray trimmed label with
      | .error e => .error e
      | .ok items => .ok (.varr items)
    else
      match (unwrapZodSchema inner).schema with
      | .zstring => .ok (.vstr raw)
      | .ztrimNonempty => .ok (.vstr raw)
      | .znumber =>
        match jsNumberInt raw with
        | some n => .ok (.vnum n)
        | none =>
          .error
            (("Invalid number for ").toList ++ label ++ (": ").toList ++ raw)
      | .zenum _ => .ok (.vstr raw)
      | _ => .error (label ++ (" must be a JSON array").toList)
  | _ => .ok (.vstr raw)

/-- `assignCliValue`: store a coerced value; array-shaped parameters
accumulate repeated occurrences into an array (a falsy existing value is
replaced, a non-array one is wrapped together with the new value). -/
def assignCliValue (params : Params) (key : Str) (schema : ZodTy)
    (value : JsValue) : Params :=
  if zodTyName (unwrapZodSchema schema).schema ≠ .tarray then
    assocSet params key value
  else
    match value with
    | .varr items => assocSet params key (.varr items)
    | v =>
      match assocGet params key with
      | none => assocSet params key (.varr [v])
      | some existing =>
        if !jsTruthy existing then assocSet params key (.varr [v])
        else
          match existing with
          | .varr items => assocSet params key (.varr (items ++ [v]))
          | e => assocSet params key (.varr [e, v])

/-- A tool descriptor as the command decoder observes it: a name and a
named, ordered parameter schema. -/
structure ToolSpec where
  name : Str
  schema : List (Str × ZodTy)

/-- The positional parameter keys of a schema: the required scalar/enum
parameters, in declared order. -/
def positionalKeysOf (schema : List (Str × ZodTy)) : List Str :=
  (((schema.filter (fun e => (unwrapZodSchema e.2).required)).filter
    (fun e => schemaIsPositionalFriendly e.2)).map (fun e => e.1))

/-- Split a flag body at its first equals sign, if any. -/
def splitAtFirstEq : Str → Option (Str × Str)
  | [] => none
  | '=' :: rest => some ([], rest)
  | c :: rest =>
    match splitAtFirstEq rest with
    | none => none
    | some (k, v) => some (c :: k, v)

/-- Outcome of handling one `--flag` token (the flag branch of the token
loop): a decode error, a silently skipped bare `--` body, an updated
parameter mapping, or a request to consume the following token as the
flag's value. -/
inductive FlagStep where
  | fail (e : Str)
  | skip
  | assigned (params : Params)
  | needsValue (rawKey : Str) (key : Str) (sch : ZodTy)

/-- The flag branch of the token loop: `--no-name` sets a parameter to
false, `--name=value` carries its value inline, a bare boolean `--name` is
set to true, and any other `--name` takes the next token as its value;
unknown parameter names are decode errors naming the flag. -/
def handleFlagToken (schema : List (Str × ZodTy)) (params : Params)
    (flagBody : Str) : FlagStep :=
  if flagBody = [] then .skip
  else if (("no-").toList).isPrefixOf flagBody then
    let rawKey := flagBody.drop 3
    let key := kebabToCamelCase rawKey
    match assocGet schema key with
    | none => .fail (("Unknown param: --").toList ++ rawKey)
    | some sch => .assigned (assignCliValue params key sch (.vbool false))
  else
    let split := splitAtFirstEq flagBody
    let rawKey := match split with | some (k, _) => k | none => flagBody
    let rawValue := match split with | some (_, v) => some v | none => none
    let key := kebabToCamelCase rawKey
    match assocGet schema key with
    | none => .fail (("Unknown param: --").toList ++ rawKey)
    | some sch =>
      if rawValue.isNone &&
          zodTyName (unwrapZodSchema sch).schema = .tboolean then
        .assigned (assignCliValue params key sch (.vbool true))
      else
        match rawValue with
        | some rv =>
          match coerceCliValue sch key rv with
          | .error e => .fail e
          | .ok v => .assigned (assignCliValue params key sch v)
        | none => .needsValue rawKey key sch

/-- The positional branch of the token loop: fill the next positional slot,
or fail on an extra positional token beyond the declared slots. -/
def handlePositionalToken (schema : List (Str × ZodTy))
    (positionalKeys : List Str) (params : Params) (posIdx : Nat)
    (token : Str) : Except Str Params :=
  match positionalKeys.get? posIdx with
  | none => .error (("Unexpected extra arg: ").toList ++ token)
  | some key =>
    match assocGet schema key with
    | none =>
      .error (("Unexpected positional arg for unknown param: ").toList ++ key)
    | some sch =>
      match coerceCliValue sch key token with
      | .error e => .error e
      | .ok v => .ok (assocSet params key v)

/-- Main token loop of `parseToolParamsFromCliTokens`: state is the raw
parameter mapping, the next positional slot, and the after-`--` switch. -/
def parseCliTokensAux (schema : List (Str × ZodTy))
    (positionalKeys : List Str) :
    List Str → Params → Nat → Bool → Except Str Params
  | [], params, _, _ => .ok params
  | token :: rest, params, posIdx, afterDD =>
    if token = (("--").toList) then
      parseCliTokensAux schema positionalKeys rest params posIdx true
    else if !afterDD && (("--").toList).isPrefixOf token then
      match handleFlagToken schema params (token.drop 2) with
      | .fail e => .error e
      | .skip => parseCliTokensAux schema positionalKeys rest params posIdx afterDD
      | .assigned params2 =>
        parseCliTokensAux schema positionalKeys rest params2 posIdx afterDD
      | .needsValue rawKey key sch =>
        match rest with
        | [] => .error (("Missing value for --").toList ++ rawKey)
        | rv :: rest2 =>
          match coerceCliValue sch key rv with
          | .error e => .error e
          | .ok v =>
            parseCliTokensAux schema positionalKeys rest2
              (assignCliValue params key sch v) posIdx afterDD
    else
      match handlePositionalToken schema positionalKeys params posIdx token with
      | .error e => .error e
      | .ok params2 =>
        parseCliTokensAux schema positionalKeys rest params2 (posIdx + 1)
          afterDD

/-- `parseToolParamsFromCliTokens`: map the tokens after the tool name to a
raw parameter mapping, positionally for required scalar/enum parameters and
by `--name` flags otherwise. -/
def parseToolParamsFromCliTokens (tool : ToolSpec) (tokens : List Str) :
    Except Str Params :=
  parseCliTokensAux tool.schema (positionalKeysOf tool.schema)
    (tokens.drop 1) [] 0 false

/-! ## Schema validation (modelled) -/

/-- Modelled from the spec: the zod check of one non-array value shape
(wrappers delegate to the wrapped shape; the trimmed-nonempty string shape
trims its value and rejects the empty result; a nested array shape is
outside the modelled fragment). -/
def zodCheckElement : ZodTy → JsValue → Except Unit JsValue
  | .zoptional inner, v => zodCheckElement inner v
  | .zdefault _ inner, v => zodCheckElement inner v
  | .zeffects inner, v => zodCheckElement inner v
  | .zstring, .vstr s => .ok (.vstr s)
  | .ztrimNonempty, .vstr s =>
    let t := jsTrim s
    if t = [] then .error () else .ok (.vstr t)
  | .znumber, .vnum n => .ok (.vnum n)
  | .zboolean, .vbool b => .ok (.vbool b)
  | .zenum values, .vstr s =>
    if s ∈ values then .ok (.vstr s) else .error ()
  | .zobject, .vobj fields => .ok (.vobj fields)
  | _, _ => .error ()

/-- Modelled from the spec: the value check of the zod validation library
(not part of the sources) for one parameter shape: the value must match the
declared shape exactly; an array shape checks its elements against the
declared item shape. -/
def zodCheckValue : ZodTy → JsValue → Except Unit JsValue
  | .zoptional inner, v => zodCheckValue inner v
  | .zdefault _ inner, v => zodCheckValue inner v
  | .zeffects inner, v => zodCheckValue inner v
  | .zarray inner, .varr items =>
    match items.mapM (zodCheckElement inner) with
    | .error e => .error e
    | .ok checked => .ok (.varr checked)
  | .zarray _, _ => .error ()
  | ty, v => zodCheckElement ty v

/-- Modelled from the spec: `zod.object(tool.schema).parse(rawParams)` —
validate the raw parameters against the schema; a declared default is
substituted when the parameter is absent, an absent optional parameter is
dropped, an absent required parameter or a shape mismatch is a validation
error naming the offending field. -/
def zodObjectParse : List (Str × ZodTy) → Params → Except Str Params
  | [], _ => .ok []
  | (key, ty) :: restSchema, raw =>
    match assocGet raw key with
    | some v =>
      match zodCheckValue ty v with
      | .error _ => .error (("Invalid value for parameter: ").toList ++ key)
      | .ok v2 =>
        match zodObjectParse restSchema raw with
        | .error e => .error e
        | .ok ps => .ok ((key, v2) :: ps)
    | none =>
      let u := unwrapZodSchema ty
      match u.defaultValue with
      | some d =>
        match zodObjectParse restSchema raw with
        | .error e => .error e
        | .ok ps => .ok ((key, d) :: ps)
      | none =>
        if u.required then
          .error (("Missing required parameter: ").toList ++ key)
        else zodObjectParse restSchema raw

/-! ## Accessibility snapshots: normalization (modelled) -/

/-- A raw accessibility-tree capture: a nested tree of nodes with role,
name, arbitrary extra attributes, and children. -/
structure RawAXNode where
  role : Option Str
  name : Option Str
  attributes : List (Str × JsValue)
  children : List RawAXNode

/-- A normalized accessibility node: role, name, a stable positional path,
and attributes. -/
structure NormalizedAXNode where
  role : Option Str
  name : Option Str
  path : Str
  attributes : List (Str × JsValue)
deriving DecidableEq

/-- Render a positional path as an ordinal chain such as `0.1.2`. -/
def pathToStr : List Nat → Str
  | [] => []
  | [i] => (toString i).toList
  | i :: rest => (toString i).toList ++ '.' :: pathToStr rest

mutual

/-- Modelled from the spec: the node walk of `normalizeSnapshot` (the
`utils/accessibilityDiff.ts` module is not part of the sources) — a
depth-first traversal emitting one normalized node per raw node, with the
path given by the chain of child ordinals; nodes with no role and no name
are retained (one consistent policy, applied on every capture). -/
def normalizeNode : List Nat → RawAXNode → List NormalizedAXNode
  | path, { role := r, name := nm, attributes := attrs, children := cs } =>
    { role := r, name := nm, path := pathToStr path, attributes := attrs } ::
      normalizeChildren path 0 cs
termination_by _ node => sizeOf node

/-- Modelled from the spec: depth-first traversal of a child list, numbering
children from zero. -/
def normalizeChildren (path : List Nat) (i : Nat) :
    List RawAXNode → List NormalizedAXNode
  | [] => []
  | c :: cs => normalizeNode (path ++ [i]) c ++ normalizeChildren path (i + 1) cs
termination_by cs => sizeOf cs

end

/-- Modelled from the spec: `normalizeSnapshot` — flatten a raw capture into
a deterministically ordered list of normalized nodes, the root at path 0. -/
def normalizeSnapshot (root : RawAXNode) : List NormalizedAXNode :=
  normalizeNode [0] root

/-! ## Accessibility snapshots: diff engine (modelled) -/

/-- One changed field of a node: property name, value before, value after;
an absent value (`none`) records presence/absence changes. -/
structure FieldChange where
  property : Str
  before : Option JsValue
  after : Option JsValue
deriving DecidableEq

/-- A changed node: its path, current role and name, and the field deltas. -/
structure NodeChange where
  path : Str
  role : Option Str
  name : Option Str
  changes : List FieldChange
deriving DecidableEq

/-- The structural diff of two normalized snapshots. -/
structure SnapshotDiff where
  added : List NormalizedAXNode
  removed : List NormalizedAXNode
  changed : List NodeChange
deriving DecidableEq

/-- Modelled from the spec: field-by-field comparison of two nodes at the
same path across role, name, and attributes; any differing value (including
presence/absence) contributes one property/before/after entry, attribute
values compared by deep structural equality. -/
def nodeFieldChanges (o n : NormalizedAXNode) : List FieldChange :=
  let roleChanges : List FieldChange :=
    if o.role = n.role then []
    else [{ property := ("role").toList, before := o.role.map JsValue.vstr,
            after := n.role.map JsValue.vstr }]
  let nameChanges : List FieldChange :=
    if o.name = n.name then []
    else [{ property := ("name").toList, before := o.name.map JsValue.vstr,
            after := n.name.map JsValue.vstr }]
  let oldKeys := o.attributes.map (fun e => e.1)
  let keys := oldKeys ++
    ((n.attributes.map (fun e => e.1)).filter (fun k => !oldKeys.contains k))
  let attrChanges := keys.filterMap (fun k =>
    let b := assocGet o.attributes k
    let a := assocGet n.attributes k
    if b = a then none
    else some { property := k, before := b, after := a })
  roleChanges ++ nameChanges ++ attrChanges

/-- Modelled from the spec: index a normalized node list by path (later
nodes at a duplicate path overwrite earlier ones, as a Map would). -/
def indexByPath (nodes : List NormalizedAXNode) :
    List (Str × NormalizedAXNode) :=
  nodes.foldl (fun acc node => assocSet acc node.path node) []

/-- Modelled from the spec: `diffSnapshots` — index both lists by path; a
path only in the new list is an addition, a path only in the old list is a
removal, a path in both with at least one field delta is a changed node. -/
def diffSnapshots (oldNodes newNodes : List NormalizedAXNode) :
    SnapshotDiff :=
  let oldIdx := indexByPath oldNodes
  let newIdx := indexByPath newNodes
  { added := (newIdx.filter
      (fun e => (assocGet oldIdx e.1).isNone)).map (fun e => e.2),
    removed := (oldIdx.filter
      (fun e => (assocGet newIdx e.1).isNone)).map (fun e => e.2),
    changed := newIdx.filterMap (fun e =>
      match assocGet oldIdx e.1 with
      | none => none
      | some o =>
        let cs := nodeFieldChanges o e.2
        if cs.isEmpty then none
        else some { path := e.1, role := e.2.role, name := e.2.name,
                    changes := cs }) }

/-- Modelled from the spec: `hasSnapshotChanges` — true iff any of the three
lists is non-empty. -/
def hasSnapshotChanges (d : SnapshotDiff) : Bool :=
  !d.added.isEmpty || !d.removed.isEmpty || !d.changed.isEmpty

/-! ## Accessibility snapshots: report formatting (from `snapshot.ts`) -/

mutual

/-- JSON.stringify rendering of a modelled value (modelled from the spec:
stringify is a builtin; the escape set covers the quote and backslash). -/
def jsonRender : JsValue → Str
  | .vstr s => jsonRenderString s
  | .vnum n => (toString n).toList
  | .vbool b => if b then ("true").toList else ("false").toList
  | .vnull => ("null").toList
  | .varr items => '[' :: jsonRenderItems items ++ [']']
  | .vobj fields => Char.ofNat 123 :: jsonRenderFields fields ++ [Char.ofNat 125]

/-- Comma-separated rendering of array items. -/
def jsonRenderItems : List JsValue → Str
  | [] => []
  | [v] => jsonRender v
  | v :: vs => jsonRender v ++ ',' :: jsonRenderItems vs

/-- Comma-separated rendering of object fields. -/
def jsonRenderFields : List (Str × JsValue) → Str
  | [] => []
  | [(k, v)] => jsonRenderString k ++ ':' :: jsonRender v
  | (k, v) :: fs => jsonRenderString k ++ ':' :: jsonRender v ++ ',' :: jsonRenderFields fs

/-- Quoted, escaped string rendering. -/
def jsonRenderString (s : Str) : Str :=
  '"' :: (s.foldr (fun c acc =>
    if c = '"' || c = '\\' then '\\' :: c :: acc else c :: acc) ['"'])

end

/-- `formatDiffValue`: null/absent render as the literal word, strings are
JSON-quoted, numbers and booleans literal, everything else JSON-rendered. -/
def formatDiffValue : Option JsValue → Str
  | none => ("undefined").toList
  | some .vnull => ("null").toList
  | some (.vstr s) => jsonRenderString s
  | some (.vnum n) => (toString n).toList
  | some (.vbool b) => if b then ("true").toList else ("false").toList
  | some v => jsonRender v

/-- `formatNodeSummary`: bracketed role (or `[unknown role]`), quoted name
when present, and the node's path. -/
def formatNodeSummary (node : NormalizedAXNode) : Str :=
  let role := match node.role with
    | some r => if r.isEmpty then ("[unknown role]").toList
                else '[' :: r ++ [']']
    | none => ("[unknown role]").toList
  let name := match node.name with
    | some n => if n.isEmpty then [] else ' ' :: '"' :: n ++ ['"']
    | none => []
  role ++ name ++ (" at path ").toList ++ node.path

/-- `formatChangeSummary`: the same summary for a changed node. -/
def formatChangeSummary (change : NodeChange) : Str :=
  let role := match change.role with
    | some r => if r.isEmpty then ("[unknown role]").toList
                else '[' :: r ++ [']']
    | none => ("[unknown role]").toList
  let name := match change.name with
    | some n => if n.isEmpty then [] else ' ' :: '"' :: n ++ ['"']
    | none => []
  role ++ name ++ (" at path ").toList ++ change.path

/-! ## The `take_change_snapshot` tool handler (from `snapshot.ts`) -/

/-- The baseline store: the keyed in-memory table of normalized snapshots
owned by the session context. -/
abbrev BaselineStore := List (Str × List NormalizedAXNode)

/-- The parsed parameters of one `take_change_snapshot` request. -/
structure ChangeSnapshotRequest where
  baselineKey : Option Str
  replaceBaseline : Option Bool
  compareTo : Option Str

/-- Handler line: no snapshot could be captured. -/
def unableToCaptureMsg : Str :=
  ("Unable to capture accessibility snapshot for the current page.").toList

/-- Handler line: a baseline was created at the key being compared. -/
def noBaselineSameKeyMsg (compareKey : Str) : Str :=
  ("No baseline found for key \"").toList ++ compareKey ++
    ("\". Created a baseline with the current snapshot.").toList

/-- Handler line: a baseline was created under a different key. -/
def noBaselineOtherKeyMsg (compareKey baselineKey : Str) : Str :=
  ("No baseline found for key \"").toList ++ compareKey ++
    ("\". Created a baseline under \"").toList ++ baselineKey ++
    ("\" with the current snapshot.").toList

/-- Handler line: the diff found nothing. -/
def noChangesMsg (compareKey : Str) : Str :=
  ("No accessibility changes compared to baseline \"").toList ++ compareKey ++
    ("\".").toList

/-- Handler lines for a non-empty diff: header, counts, and the grouped
Added/Removed/Changed summaries with per-field before/after values. -/
def changesReport (compareKey : Str) (d : SnapshotDiff) : List Str :=
  [("Accessibility changes compared to baseline \"").toList ++ compareKey ++
     ("\":").toList,
   ("Added nodes: ").toList ++ (toString d.added.length).toList ++
     (", Removed nodes: ").toList ++ (toString d.removed.length).toList ++
     (", Changed nodes: ").toList ++ (toString d.changed.length).toList] ++
  (if d.added.isEmpty then [] else
    ("## Added").toList ::
      d.added.map (fun node => ("- ").toList ++ formatNodeSummary node)) ++
  (if d.removed.isEmpty then [] else
    ("## Removed").toList ::
      d.removed.map (fun node => ("- ").toList ++ formatNodeSummary node)) ++
  (if d.changed.isEmpty then [] else
    ("## Changed").toList ::
      (d.changed.map (fun change =>
        (("- ").toList ++ formatChangeSummary change) ::
          change.changes.map (fun detail =>
            ("  - ").toList ++ detail.property ++ (": ").toList ++
              formatDiffValue detail.before ++ (" -> ").toList ++
              formatDiffValue detail.after))).flatten)

/-- `baselineKey?.trim() || 'default'` — the key the baseline is stored
under. -/
def resolveBaselineKey (params : ChangeSnapshotRequest) : Str :=
  match params.baselineKey with
  | none => ("default").toList
  | some s => if (jsTrim s).isEmpty then ("default").toList else jsTrim s

/-- `compareTo?.trim() || baselineKey` — the key compared against. -/
def resolveCompareKey (params : ChangeSnapshotRequest) : Str :=
  match params.compareTo with
  | none => resolveBaselineKey params
  | some s =>
    if (jsTrim s).isEmpty then resolveBaselineKey params else jsTrim s

/-- The `take_change_snapshot` handler: resolve the keys and the
replace-baseline default, capture and normalize the current snapshot, and
either create a missing baseline or report the diff and (by default) roll
the baseline forward.  The captured raw snapshot is passed in explicitly
(`none` models a failed capture); the result is the emitted response lines
and the updated baseline store. -/
def takeChangeSnapshotHandler (params : ChangeSnapshotRequest)
    (snapshot : Option RawAXNode) (store : BaselineStore) :
    List Str × BaselineStore :=
  let baselineKey := resolveBaselineKey params
  let compareKey := resolveCompareKey params
  let replaceBaseline := params.replaceBaseline.getD true
  match snapshot with
  | none => ([unableToCaptureMsg], store)
  | some snap =>
    let normalizedSnapshot := normalizeSnapshot snap
    match assocGet store compareKey with
    | none =>
      ([if compareKey = baselineKey then noBaselineSameKeyMsg compareKey
        else noBaselineOtherKeyMsg compareKey baselineKey],
       assocSet store baselineKey normalizedSnapshot)
    | some baseline =>
      let d := diffSnapshots baseline normalizedSnapshot
      let lines :=
        if hasSnapshotChanges d then changesReport compareKey d
        else [noChangesMsg compareKey]
      let store2 :=
        if replaceBaseline then assocSet store baselineKey normalizedSnapshot
        else store
      (lines, store2)

/-! ## Session runtime (from `cliApp.ts`, the `session` command loop) -/

/-- One reported output unit of the session loop: a success (the handled
content lines) or an error attributed to a tool name, independent of the
negotiated json/text rendering. -/
inductive OutLine where
  | success (tool : Str) (content : List Str)
  | error (tool : Str) (msg : Str)
deriving DecidableEq

/-- Outcome of one loop iteration: stop reading (exit/quit sentinel) or
keep the loop alive, with the output written for this line. -/
inductive SessionStep where
  | halt
  | next (out : List OutLine)
deriving DecidableEq

/-- The session's collaborators behind one command execution: the tool
handler invocation together with response handling (returning content lines
or a thrown error), and the category/feature gating predicate over the
process configuration. -/
structure SessionEnv where
  runTool : Str → Params → Except Str (List Str)
  toolEnabled : ToolSpec → Bool

/-- Registry lookup: the first tool with the given name. -/
def findTool (reg : List ToolSpec) (name : Str) : Option ToolSpec :=
  reg.find? (fun t => t.name == name)

/-- Error naming an unknown tool. -/
def unknownToolMsg (name : Str) : Str := ("Unknown tool: ").toList ++ name

/-- Error for a tool rejected by the category/feature gate. -/
def toolDisabledMsg (name : Str) : Str :=
  ("Tool ").toList ++ name ++
    (" is disabled by category or experimental flags.").toList

/-- Error for a JSON message without a usable tool field. -/
def missingToolFieldMsg : Str :=
  ("Missing required field: \"tool\" (string)").toList

/-- Error for a JSON line that is not an object. -/
def expectedObjectMsg : Str := ("Expected an object message").toList

/-- Strip the optional leading literal program name token. -/
def stripProgramName (tokens : List Str) : List Str :=
  match tokens with
  | [] => tokens
  | t :: rest =>
    if t = (("chrome_devtools").toList) || t = (("chrome-devtools-cli").toList)
        || t = (("chrome-devtools-mcp").toList) then
      rest
    else tokens

/-- The decode stage outcome for one input line. -/
inductive Decoded where
  | skip
  | exit
  | errOut (who : Str) (msg : Str)
  | cmd (toolName : Str) (rawParams : Params)
deriving DecidableEq

/-- The per-line decode stage of the session loop: blank and `#`-prefixed
lines are skipped; a line starting with a brace is decoded as a JSON
message (tool field, optional params object, exit/quit sentinel); any other
line is tokenized as a CLI line, the optional program name stripped, dashes
in the tool name mapped to underscores, and the remaining tokens decoded
against the tool's schema. -/
def decodeSessionLine (reg : List ToolSpec) (line : Str) : Decoded :=
  let trimmed := jsTrim line
  if trimmed.isEmpty then .skip
  else if trimmed.head? = some '#' then .skip
  else if trimmed.head? = some (Char.ofNat 123) then
    match jsonParse trimmed with
    | .error e => .errOut (("session").toList) e
    | .ok (.vobj fields) =>
      match assocGet fields (("tool").toList) with
      | some (.vstr t) =>
        if t = (("exit").toList) || t = (("quit").toList) then .exit
        else if (jsTrim t).isEmpty then
          .errOut (("session").toList) missingToolFieldMsg
        else
          let toolName := jsTrim t
          let rawParams := match assocGet fields (("params").toList) with
            | some (.vobj ps) => ps
            | _ => []
          .cmd toolName rawParams
      | _ => .errOut (("session").toList) missingToolFieldMsg
    | .ok _ => .errOut (("session").toList) expectedObjectMsg
  else
    match tokenizeCliLine trimmed with
    | .error e => .errOut (("session").toList) e
    | .ok tokens =>
      if tokens.isEmpty then .skip
      else
        match stripProgramName tokens with
        | [] => .skip
        | first :: restTokens =>
          if first = (("exit").toList) || first = (("quit").toList) then .exit
          else
            let toolName := first.map (fun c => if c = '-' then '_' else c)
            match findTool reg toolName with
            | none => .errOut (("session").toList) (unknownToolMsg toolName)
            | some tool =>
              match parseToolParamsFromCliTokens tool (first :: restTokens) with
              | .error e => .errOut toolName e
              | .ok raw => .cmd toolName raw

/-- The try/catch body of one guarded command execution: validate the raw
parameters against the schema, invoke the handler, and turn a validation
failure or a thrown handler error into an error line attributed to the
tool. -/
def runGuardedCommand (env : SessionEnv) (tool : ToolSpec) (raw : Params) :
    OutLine :=
  match zodObjectParse tool.schema raw with
  | .error e => .error tool.name e
  | .ok parsed =>
    match env.runTool tool.name parsed with
    | .error e => .error tool.name e
    | .ok content => .success tool.name content

/-- Modelled from the spec: the ExecutionGuard (the Mutex class is not part
of the sources) is a single permit that can be acquired only when free;
the session loop wraps each command's processing in acquire / try /
finally-dispose, so the permit is free again on every exit path of the
body.  The boolean is `true` when the guard is free; the `none` result
models that a second acquisition cannot proceed while the permit is held. -/
def execWithGuard (env : SessionEnv) (tool : ToolSpec) (raw : Params)
    (guardFree : Bool) : Option (Bool × OutLine) :=
  if guardFree then some (true, runGuardedCommand env tool raw) else none

/-- The post-decode stage of one loop iteration: look the tool up in the
registry, apply the category/feature gate, and run the guarded execution
(the loop holds the single permit, so acquisition starts from the free
state). -/
def dispatchDecoded (env : SessionEnv) (reg : List ToolSpec) :
    Decoded → SessionStep
  | .skip => .next []
  | .exit => .halt
  | .errOut who msg => .next [.error who msg]
  | .cmd toolName raw =>
    match findTool reg toolName with
    | none => .next [.error toolName (unknownToolMsg toolName)]
    | some tool =>
      if env.toolEnabled tool then
        match execWithGuard env tool raw true with
        | some (_, out) => .next [out]
        | none => .next []
      else .next [.error toolName (toolDisabledMsg toolName)]

/-- One full iteration of the session loop on one input line. -/
def sessionHandleLine (env : SessionEnv) (reg : List ToolSpec) (line : Str) :
    SessionStep :=
  dispatchDecoded env reg (decodeSessionLine reg line)

/-- The session loop over a whole input stream: process lines in order,
stopping at the exit/quit sentinel, and collect everything written. -/
def runSession (env : SessionEnv) (reg : List ToolSpec) :
    List Str → List OutLine
  | [] => []
  | line :: rest =>
    match sessionHandleLine env reg line with
    | .halt => []
    | .next out => out ++ runSession env reg rest

/-! ## Sample fixtures

Concrete schemas mirroring representative registered tools (the registry
module itself is external to the embedded core), and sample environments,
used by the concrete instances below. -/

/-- The `fill` tool: two required string parameters, filled positionally. -/
def fillToolSpec : ToolSpec :=
  { name := ("fill").toList,
    schema := [((("uid").toList), ZodTy.zstring),
               ((("value").toList), ZodTy.zstring)] }

/-- The `wait_for` tool: a required text parameter and an optional numeric
timeout. -/
def waitForToolSpec : ToolSpec :=
  { name := ("wait_for").toList,
    schema := [((("text").toList), ZodTy.zstring),
               ((("timeout").toList), ZodTy.zoptional ZodTy.znumber)] }

/-- The `take_screenshot` tool fragment: one optional boolean flag. -/
def takeScreenshotToolSpec : ToolSpec :=
  { name := ("take_screenshot").toList,
    schema := [((("fullPage").toList), ZodTy.zoptional ZodTy.zboolean)] }

/-- The `take_snapshot` tool fragment: a boolean with a declared default. -/
def takeSnapshotToolSpec : ToolSpec :=
  { name := ("take_snapshot").toList,
    schema := [((("verbose").toList),
                ZodTy.zdefault (JsValue.vbool false) ZodTy.zboolean)] }

/-- A sample registry. -/
def sampleTools : List ToolSpec :=
  [fillToolSpec, waitForToolSpec, takeScreenshotToolSpec,
   takeSnapshotToolSpec]

/-- A sample environment whose handlers succeed with empty content. -/
def sampleEnv : SessionEnv :=
  { runTool := fun _ _ => .ok [], toolEnabled := fun _ => true }

/-- A sample environment whose handlers throw. -/
def throwingEnv : SessionEnv :=
  { runTool := fun _ _ => .error (("boom").toList), toolEnabled := fun _ => true }

/-- A sample captured accessibility tree. -/
def sampleRawNode : RawAXNode :=
  { role := some (("main").toList), name := none,
    attributes := [((("focused").toList), JsValue.vbool true)],
    children :=
      [{ role := some (("button").toList), name := some (("Go").toList),
         attributes := [], children := [] }] }

/-- The same tree after a page mutation (the button was renamed). -/
def sampleRawNode2 : RawAXNode :=
  { role := some (("main").toList), name := none,
    attributes := [((("focused").toList), JsValue.vbool true)],
    children :=
      [{ role := some (("button").toList), name := some (("Stop").toList),
         attributes := [], children := [] }] }

/-- Sample `take_change_snapshot` parameters: explicit default key, all
other parameters left to their defaults. -/
def sampleChangeParams : ChangeSnapshotRequest :=
  { baselineKey := some (("default").toList), replaceBaseline := none,
    compareTo := none }

/-- Sample `take_change_snapshot` parameters opting out of baseline
replacement. -/
def sampleNoReplaceParams : ChangeSnapshotRequest :=
  { baselineKey := some (("default").toList),
    replaceBaseline := some false, compareTo := none }

/-! ## Association list lemmas -/

theorem assocGet_assocSet_self {α : Type} (l : List (Str × α)) (k : Str)
    (v : α) : assocGet (assocSet l k v) k = some v := by
  induction l with
  | nil => simp [assocSet, assocGet]
  | cons e rest ih =>
    obtain ⟨k2, w⟩ := e
    by_cases h : k2 = k
    · simp [assocSet, assocGet, h]
    · simp [assocSet, assocGet, h, ih]

theorem assocGet_assocSet_ne {α : Type} (l : List (Str × α)) (k k2 : Str)
    (v : α) (h : k ≠ k2) :
    assocGet (assocSet l k v) k2 = assocGet l k2 := by
  induction l with
  | nil => simp [assocSet, assocGet, h]
  | cons e rest ih =>
    obtain ⟨k3, w⟩ := e
    by_cases h3 : k3 = k
    · simp [assocSet, assocGet, h3, h]
    · simp [assocSet, assocGet, h3, ih]

theorem map_fst_assocSet {α : Type} (l : List (Str × α)) (k : Str) (v : α) :
    (assocSet l k v).map Prod.fst = l.map Prod.fst ∨
    (assocSet l k v).map Prod.fst = l.map Prod.fst ++ [k] := by
  induction l with
  | nil => right; simp [assocSet]
  | cons e rest ih =>
    obtain ⟨k2, w⟩ := e
    by_cases h : k2 = k
    · left; simp [assocSet, h]
    · rcases ih with ih | ih
      · left; simp [assocSet, h, ih]
      · right; simp [assocSet, h, ih]

theorem notMem_map_fst_assocSet {α : Type} (l : List (Str × α)) (k k2 : Str)
    (v : α) (hne : k2 ≠ k) (hmem : k2 ∉ l.map Prod.fst) :
    k2 ∉ (assocSet l k v).map Prod.fst := by
  rcases map_fst_assocSet l k v with h | h <;> rw [h]
  · exact hmem
  · intro hc
    rcases List.mem_append.mp hc with hc | hc
    · exact hmem hc
    · exact hne (List.mem_singleton.mp hc)

theorem nodup_map_fst_assocSet {α : Type} (l : List (Str × α)) (k : Str)
    (v : α) (h : (l.map Prod.fst).Nodup) :
    ((assocSet l k v).map Prod.fst).Nodup := by
  induction l with
  | nil => simp [assocSet]
  | cons e rest ih =>
    obtain ⟨k2, w⟩ := e
    simp only [List.map_cons, List.nodup_cons] at h
    by_cases hk : k2 = k
    · simp only [assocSet, if_pos hk, List.map_cons, List.nodup_cons]
      exact ⟨hk ▸ h.1, h.2⟩
    · simp only [assocSet, if_neg hk, List.map_cons, List.nodup_cons]
      exact ⟨notMem_map_fst_assocSet rest k k2 v hk h.1, ih h.2⟩

theorem assocGet_eq_some_of_mem {α : Type} (l : List (Str × α))
    (e : Str × α) (hmem : e ∈ l) (hnd : (l.map Prod.fst).Nodup) :
    assocGet l e.1 = some e.2 := by
  induction l with
  | nil => cases hmem
  | cons hd rest ih =>
    obtain ⟨k, w⟩ := hd
    simp only [List.map_cons, List.nodup_cons] at hnd
    rcases List.mem_cons.mp hmem with heq | hrest
    · subst heq; simp [assocGet]
    · have hne : k ≠ e.1 := by
        intro hk
        exact hnd.1 (hk ▸ List.mem_map_of_mem Prod.fst hrest)
      simp [assocGet, hne, ih hrest hnd.2]

/-! ## Diff engine lemmas -/

theorem indexByPath_keys_nodup (nodes : List NormalizedAXNode) :
    ((indexByPath nodes).map Prod.fst).Nodup := by
  have general : ∀ (ns : List NormalizedAXNode)
      (acc : List (Str × NormalizedAXNode)), (acc.map Prod.fst).Nodup →
      ((ns.foldl (fun a node => assocSet a node.path node) acc).map
        Prod.fst).Nodup := by
    intro ns
    induction ns with
    | nil => intro acc h; simpa using h
    | cons n rest ih =>
      intro acc h
      exact ih _ (nodup_map_fst_assocSet acc n.path n h)
  exact general nodes [] (by simp)

theorem assocGet_indexByPath_of_mem (nodes : List NormalizedAXNode)
    (e : Str × NormalizedAXNode) (hmem : e ∈ indexByPath nodes) :
    assocGet (indexByPath nodes) e.1 = some e.2 :=
  assocGet_eq_some_of_mem _ e hmem (indexByPath_keys_nodup nodes)

theorem nodeFieldChanges_self (n : NormalizedAXNode) :
    nodeFieldChanges n n = [] := by
  simp [nodeFieldChanges]

theorem diffSnapshots_self (A : List NormalizedAXNode) :
    diffSnapshots A A = { added := [], removed := [], changed := [] } := by
  have hget : ∀ e ∈ indexByPath A,
      assocGet (indexByPath A) e.1 = some e.2 := fun e he =>
    assocGet_indexByPath_of_mem A e he
  simp only [diffSnapshots, SnapshotDiff.mk.injEq]
  refine ⟨?_, ?_, ?_⟩
  · rw [List.map_eq_nil_iff, List.filter_eq_nil_iff]
    intro e he
    simp [hget e he]
  · rw [List.map_eq_nil_iff, List.filter_eq_nil_iff]
    intro e he
    simp [hget e he]
  · rw [List.filterMap_eq_nil_iff]
    intro e he
    simp [hget e he, nodeFieldChanges_self]

/-! ## Tokenizer lemmas -/

theorem tokenizeCliLineAux_error_eq (cs : List Char) :
    ∀ (tokens : List Str) (current : Str) (quoteState : Option Char)
      (escaping : Bool) (e : Str),
      tokenizeCliLineAux cs tokens current quoteState escaping = .error e →
      e = unterminatedQuoteMsg := by
  induction cs with
  | nil =>
    intro tokens current quoteState escaping e h
    cases quoteState with
    | some q =>
      simp only [tokenizeCliLineAux, Except.error.injEq] at h
      exact h.symm
    | none => simp [tokenizeCliLineAux] at h
  | cons c cs ih =>
    intro tokens current quoteState escaping e h
    simp only [tokenizeCliLineAux] at h
    repeat' split at h
    all_goals exact ih _ _ _ _ _ h

theorem tokPush_forall_ne_nil (tokens : List Str) (current : Str)
    (h : ∀ t ∈ tokens, t ≠ []) : ∀ t ∈ tokPush tokens current, t ≠ [] := by
  intro t ht
  unfold tokPush at ht
  split at ht
  · exact h t ht
  · next hne =>
    rcases List.mem_append.mp ht with h1 | h1
    · exact h t h1
    · rw [List.mem_singleton.mp h1]
      intro hc
      exact hne (by simp [hc])

theorem tokenizeCliLineAux_ok_ne_nil (cs : List Char) :
    ∀ (tokens : List Str) (current : Str) (quoteState : Option Char)
      (escaping : Bool) (toks : List Str),
      (∀ t ∈ tokens, t ≠ []) →
      tokenizeCliLineAux cs tokens current quoteState escaping = .ok toks →
      ∀ t ∈ toks, t ≠ [] := by
  induction cs with
  | nil =>
    intro tokens current quoteState escaping toks hinv h
    cases quoteState with
    | some _ => simp [tokenizeCliLineAux] at h
    | none =>
      simp only [tokenizeCliLineAux, Except.ok.injEq] at h
      subst h
      exact tokPush_forall_ne_nil _ _ hinv
  | cons c cs ih =>
    intro tokens current quoteState escaping toks hinv h
    simp only [tokenizeCliLineAux] at h
    repeat' split at h
    all_goals
      first
      | exact ih _ _ _ _ _ hinv h
      | exact ih _ _ _ _ _ (tokPush_forall_ne_nil _ _ hinv) h

/-! ## Session loop lemmas -/

theorem runSession_cons_next (env : SessionEnv) (reg : List ToolSpec)
    (line : Str) (rest : List Str) (out : List OutLine)
    (h : sessionHandleLine env reg line = .next out) :
    runSession env reg (line :: rest) = out ++ runSession env reg rest := by
  simp [runSession, h]

theorem sessionHandleLine_blank (env : SessionEnv) (reg : List ToolSpec)
    (line : Str) (h : (jsTrim line).isEmpty = true) :
    sessionHandleLine env reg line = .next [] := by
  simp [sessionHandleLine, decodeSessionLine, h, dispatchDecoded]

theorem sessionHandleLine_hash (env : SessionEnv) (reg : List ToolSpec)
    (line : Str) (h : (jsTrim line).head? = some '#') :
    sessionHandleLine env reg line = .next [] := by
  have hne : (jsTrim line).isEmpty = false := by
    cases hl : jsTrim line with
    | nil => rw [hl] at h; simp at h
    | cons a l => simp
  simp [sessionHandleLine, decodeSessionLine, hne, h, dispatchDecoded]

theorem sessionHandleLine_tokenize_error (env : SessionEnv)
    (reg : List ToolSpec) (line : Str) (e : Str)
    (h1 : (jsTrim line).isEmpty = false)
    (h2 : ¬(jsTrim line).head? = some '#')
    (h3 : ¬(jsTrim line).head? = some (Char.ofNat 123))
    (h4 : tokenizeCliLine (jsTrim line) = .error e) :
    sessionHandleLine env reg line =
      .next [.error (("session").toList) e] := by
  simp [sessionHandleLine, decodeSessionLine, h1, h2, h3, h4, dispatchDecoded]

/-! ## Decoder lemmas -/

theorem kebabToCamelCase_cons_ne (c : Char) (rest : Str) (h : ¬(c = '-')) :
    kebabToCamelCase (c :: rest) = c :: kebabToCamelCase rest := by
  cases rest with
  | nil =>
    rw [kebabToCamelCase.eq_def]
    split
    · simp_all
    · simp_all
    · simp_all
    · next _ c3 rest3 _ _ heq =>
      injection heq with h1 h2
      subst h1
      subst h2
      rfl
  | cons c2 r2 =>
    rw [kebabToCamelCase.eq_def]
    split
    · simp_all
    · simp_all
    · simp_all
    · next _ c3 rest3 _ _ heq =>
      injection heq with h1 h2
      subst h1
      subst h2
      rfl

theorem kebabToCamelCase_id (s : Str) (h : ¬('-' ∈ s)) :
    kebabToCamelCase s = s := by
  induction s with
  | nil => rfl
  | cons c rest ih =>
    have hc : ¬(c = '-') := fun hc => h (by simp [hc])
    have hr : ¬('-' ∈ rest) := fun hr => h (by simp [hr])
    rw [kebabToCamelCase_cons_ne c rest hc, ih hr]

theorem splitAtFirstEq_eq_none (s : Str) (h : ¬('=' ∈ s)) :
    splitAtFirstEq s = none := by
  induction s with
  | nil => rfl
  | cons c rest ih =>
    have hc : ¬(c = '=') := fun hc => h (by simp [hc])
    have hr : ¬('=' ∈ rest) := fun hr => h (by simp [hr])
    rw [splitAtFirstEq.eq_def]
    split
    · simp_all
    · simp_all
    · next _ c3 rest3 _ heq =>
      injection heq with h1 h2
      subst h1
      subst h2
      rw [ih hr]

theorem noPrefix_eq_false_of_no_dash (key : Str) (h : ¬('-' ∈ key)) :
    ((("no-").toList).isPrefixOf key) = false := by
  by_contra hc
  rw [Bool.not_eq_false, List.isPrefixOf_iff_prefix] at hc
  exact h (hc.subset (by decide))

theorem zodObjectParse_default_filled :
    ∀ (schema : List (Str × ZodTy)) (raw : Params) (key : Str) (sch : ZodTy)
      (d : JsValue) (parsed : Params),
      assocGet schema key = some sch →
      (unwrapZodSchema sch).defaultValue = some d →
      assocGet raw key = none →
      zodObjectParse schema raw = .ok parsed →
      assocGet parsed key = some d := by
  intro schema
  induction schema with
  | nil =>
    intro raw key sch d parsed hsch hdef hraw hok
    simp [assocGet] at hsch
  | cons e rest ih =>
    intro raw key sch d parsed hsch hdef hraw hok
    obtain ⟨k2, ty2⟩ := e
    by_cases hk : k2 = key
    · subst hk
      have hty : ty2 = sch := by simpa [assocGet] using hsch
      subst hty
      simp only [zodObjectParse, hraw, hdef] at hok
      cases hrec : zodObjectParse rest raw with
      | error e2 => rw [hrec] at hok; simp at hok
      | ok ps =>
        rw [hrec] at hok
        simp only [Except.ok.injEq] at hok
        rw [← hok]
        simp [assocGet]
    · have hsch2 : assocGet rest key = some sch := by
        simpa [assocGet, hk] using hsch
      cases hv : assocGet raw k2 with
      | some v =>
        simp only [zodObjectParse, hv] at hok
        cases hchk : zodCheckValue ty2 v with
        | error e2 => rw [hchk] at hok; simp at hok
        | ok v2 =>
          rw [hchk] at hok
          cases hrec : zodObjectParse rest raw with
          | error e2 => rw [hrec] at hok; simp at hok
          | ok ps =>
            rw [hrec] at hok
            simp only [Except.ok.injEq] at hok
            rw [← hok]
            simp only [assocGet, if_neg hk]
            exact ih raw key sch d ps hsch2 hdef hraw hrec
      | none =>
        simp only [zodObjectParse, hv] at hok
        cases hd2 : (unwrapZodSchema ty2).defaultValue with
        | some d2 =>
          rw [hd2] at hok
          cases hrec : zodObjectParse rest raw with
          | error e2 => rw [hrec] at hok; simp at hok
          | ok ps =>
            rw [hrec] at hok
            simp only [Except.ok.injEq] at hok
            rw [← hok]
            simp only [assocGet, if_neg hk]
            exact ih raw key sch d ps hsch2 hdef hraw hrec
        | none =>
          rw [hd2] at hok
          by_cases hreq : (unwrapZodSchema ty2).required = true
          · rw [if_pos hreq] at hok; simp at hok
          · rw [if_neg hreq] at hok
            exact ih raw key sch d parsed hsch2 hdef hraw hok

theorem parse_single_bool_flag_true (tool : ToolSpec) (key : Str)
    (sch : ZodTy) (hsch : assocGet tool.schema key = some sch)
    (hbool : zodTyName (unwrapZodSchema sch).schema = .tboolean)
    (hne : key ≠ []) (hdash : ¬('-' ∈ key)) (heqm : ¬('=' ∈ key)) :
    parseToolParamsFromCliTokens tool [tool.name, '-' :: '-' :: key] =
      .ok [(key, .vbool true)] := by
  have hdd : ("--").toList = ['-', '-'] := rfl
  have hnoteq : ¬('-' :: '-' :: key = (("--").toList)) := by
    rw [hdd]
    intro hc
    apply hne
    simpa using hc
  have hpre : ((("--").toList).isPrefixOf ('-' :: '-' :: key)) = true := by
    rw [hdd]
    simp [List.isPrefixOf]
  have hno : ((("no-").toList).isPrefixOf key) = false :=
    noPrefix_eq_false_of_no_dash key hdash
  have hsplit : splitAtFirstEq key = none := splitAtFirstEq_eq_none key heqm
  have hkebab : kebabToCamelCase key = key := kebabToCamelCase_id key hdash
  have harr : ¬(zodTyName (unwrapZodSchema sch).schema = ZodTyName.tarray) := by
    rw [hbool]
    intro hc
    cases hc
  have hno2 : ¬(['n', 'o', '-'] <+: key) := by
    intro hc
    exact hdash (hc.subset (by decide))
  have hflag : handleFlagToken tool.schema [] key =
      .assigned [(key, .vbool true)] := by
    simp [handleFlagToken, hne, hno, hno2, hsplit, hkebab, hsch, hbool,
      assignCliValue, harr, assocSet]
  unfold parseToolParamsFromCliTokens
  simp only [List.drop_succ_cons, List.drop_zero]
  simp only [parseCliTokensAux]
  rw [if_neg hnoteq]
  simp [hpre, hflag, parseCliTokensAux]

theorem parse_single_bool_flag_false (tool : ToolSpec) (key : Str)
    (sch : ZodTy) (hsch : assocGet tool.schema key = some sch)
    (hbool : zodTyName (unwrapZodSchema sch).schema = .tboolean)
    (hne : key ≠ []) (hdash : ¬('-' ∈ key)) :
    parseToolParamsFromCliTokens tool
      [tool.name, '-' :: '-' :: 'n' :: 'o' :: '-' :: key] =
      .ok [(key, .vbool false)] := by
  have hdd : ("--").toList = ['-', '-'] := rfl
  have hno : ("no-").toList = ['n', 'o', '-'] := rfl
  have hnoteq :
      ¬('-' :: '-' :: 'n' :: 'o' :: '-' :: key = (("--").toList)) := by
    rw [hdd]
    intro hc
    simp at hc
  have hpre : ((("--").toList).isPrefixOf
      ('-' :: '-' :: 'n' :: 'o' :: '-' :: key)) = true := by
    rw [hdd]
    simp [List.isPrefixOf]
  have hpre2 : ((("no-").toList).isPrefixOf ('n' :: 'o' :: '-' :: key)) =
      true := by
    rw [hno]
    simp [List.isPrefixOf]
  have hkebab : kebabToCamelCase key = key := kebabToCamelCase_id key hdash
  have harr : ¬(zodTyName (unwrapZodSchema sch).schema = ZodTyName.tarray) := by
    rw [hbool]
    intro hc
    cases hc
  have hflag : handleFlagToken tool.schema []
      ('n' :: 'o' :: '-' :: key) = .assigned [(key, .vbool false)] := by
    simp [handleFlagToken, hpre2, hkebab, hsch, assignCliValue, harr,
      assocSet]
  unfold parseToolParamsFromCliTokens
  simp only [List.drop_succ_cons, List.drop_zero]
  simp only [parseCliTokensAux]
  rw [if_neg hnoteq]
  simp [hpre, hflag, parseCliTokensAux]

/-! ## Claim theorems -/

/-- C4: for every normalized snapshot A, diff(A, A) has empty added,
removed, and changed lists and hasChanges(diff(A, A)) is false; in general
hasChanges(diff) is true if and only if at least one of the three lists is
non-empty. -/
theorem diff_self_empty_and_hasChanges_iff :
    (∀ A : List NormalizedAXNode,
      diffSnapshots A A = { added := [], removed := [], changed := [] } ∧
      hasSnapshotChanges (diffSnapshots A A) = false) ∧
    (∀ d : SnapshotDiff,
      hasSnapshotChanges d = true ↔
        (d.added ≠ [] ∨ d.removed ≠ [] ∨ d.changed ≠ [])) := by
  constructor
  · intro A
    refine ⟨diffSnapshots_self A, ?_⟩
    rw [diffSnapshots_self A]
    rfl
  · intro d
    simp [hasSnapshotChanges, or_assoc]

/-- C2: a `take_change_snapshot` call with default parameters (no
`compareTo`, `replaceBaseline` defaulting to true) against an existing
baseline overwrites the baseline at the resolved key with the current
normalized snapshot regardless of whether a diff was found, so a second
call with the same key and an unchanged page reports the
"No accessibility changes" message. -/
theorem takeChangeSnapshot_rolls_baseline_forward
    (params : ChangeSnapshotRequest) (raw : RawAXNode)
    (store : BaselineStore) (b : List NormalizedAXNode)
    (hct : params.compareTo = none)
    (hrb : params.replaceBaseline.getD true = true)
    (hb : assocGet store (resolveBaselineKey params) = some b) :
    assocGet (takeChangeSnapshotHandler params (some raw) store).2
        (resolveBaselineKey params) = some (normalizeSnapshot raw) ∧
    (takeChangeSnapshotHandler params (some raw)
        (takeChangeSnapshotHandler params (some raw) store).2).1 =
      [noChangesMsg (resolveBaselineKey params)] := by
  have hck : resolveCompareKey params = resolveBaselineKey params := by
    simp [resolveCompareKey, hct]
  have h1 : (takeChangeSnapshotHandler params (some raw) store).2 =
      assocSet store (resolveBaselineKey params) (normalizeSnapshot raw) := by
    simp [takeChangeSnapshotHandler, hck, hb, hrb]
  have hget : assocGet (assocSet store (resolveBaselineKey params)
        (normalizeSnapshot raw)) (resolveBaselineKey params) =
      some (normalizeSnapshot raw) := assocGet_assocSet_self _ _ _
  refine ⟨by rw [h1]; exact hget, ?_⟩
  rw [h1]
  simp [takeChangeSnapshotHandler, hck, hget, diffSnapshots_self,
    hasSnapshotChanges]

/-- C3: a `take_change_snapshot` call finding no baseline at the compare
key stores the current normalized snapshot under the baseline key and
reports the "no baseline, created" message, phrased differently depending
on whether the compared key and the storage key coincide; a subsequent
comparison against that key with an unchanged page reports zero changes. -/
theorem takeChangeSnapshot_creates_missing_baseline
    (params params2 : ChangeSnapshotRequest) (raw : RawAXNode)
    (store : BaselineStore)
    (hnb : assocGet store (resolveCompareKey params) = none)
    (hk2 : resolveCompareKey params2 = resolveBaselineKey params) :
    takeChangeSnapshotHandler params (some raw) store =
      ([if resolveCompareKey params = resolveBaselineKey params then
          noBaselineSameKeyMsg (resolveCompareKey params)
        else
          noBaselineOtherKeyMsg (resolveCompareKey params)
            (resolveBaselineKey params)],
       assocSet store (resolveBaselineKey params) (normalizeSnapshot raw)) ∧
    (takeChangeSnapshotHandler params2 (some raw)
        (assocSet store (resolveBaselineKey params)
          (normalizeSnapshot raw))).1 =
      [noChangesMsg (resolveCompareKey params2)] := by
  constructor
  · simp [takeChangeSnapshotHandler, hnb]
  · have hget : assocGet (assocSet store (resolveBaselineKey params)
        (normalizeSnapshot raw)) (resolveCompareKey params2) =
        some (normalizeSnapshot raw) := by
      rw [hk2]
      exact assocGet_assocSet_self _ _ _
    simp [takeChangeSnapshotHandler, hget, diffSnapshots_self,
      hasSnapshotChanges]

/-- C9: when no baseline exists at the compare key, a baseline is created
and stored at the baseline key even when the caller passes
`replaceBaseline: false`, and the call reports only the creation message —
no diff is computed or reported. -/
theorem baseline_created_despite_no_replace
    (params : ChangeSnapshotRequest) (raw : RawAXNode)
    (store : BaselineStore)
    (hnb : assocGet store (resolveCompareKey params) = none)
    (hrb : params.replaceBaseline = some false) :
    takeChangeSnapshotHandler params (some raw) store =
      ([if resolveCompareKey params = resolveBaselineKey params then
          noBaselineSameKeyMsg (resolveCompareKey params)
        else
          noBaselineOtherKeyMsg (resolveCompareKey params)
            (resolveBaselineKey params)],
       assocSet store (resolveBaselineKey params)
         (normalizeSnapshot raw)) := by
  simp [takeChangeSnapshotHandler, hnb]

/-- Witness for C2 at a concrete baseline, page capture, and parameter
set. -/
theorem takeChangeSnapshot_rolls_baseline_forward_witness :
    assocGet (takeChangeSnapshotHandler sampleChangeParams
        (some sampleRawNode)
        [((("default").toList), normalizeSnapshot sampleRawNode2)]).2
      (resolveBaselineKey sampleChangeParams) =
      some (normalizeSnapshot sampleRawNode) ∧
    (takeChangeSnapshotHandler sampleChangeParams (some sampleRawNode)
        (takeChangeSnapshotHandler sampleChangeParams (some sampleRawNode)
          [((("default").toList), normalizeSnapshot sampleRawNode2)]).2).1 =
      [noChangesMsg (resolveBaselineKey sampleChangeParams)] :=
  takeChangeSnapshot_rolls_baseline_forward sampleChangeParams sampleRawNode
    [((("default").toList), normalizeSnapshot sampleRawNode2)]
    (normalizeSnapshot sampleRawNode2) rfl rfl rfl

/-- Witness for C3 at a concrete empty store. -/
theorem takeChangeSnapshot_creates_missing_baseline_witness :
    takeChangeSnapshotHandler sampleChangeParams (some sampleRawNode) [] =
      ([if resolveCompareKey sampleChangeParams =
            resolveBaselineKey sampleChangeParams then
          noBaselineSameKeyMsg (resolveCompareKey sampleChangeParams)
        else
          noBaselineOtherKeyMsg (resolveCompareKey sampleChangeParams)
            (resolveBaselineKey sampleChangeParams)],
       assocSet [] (resolveBaselineKey sampleChangeParams)
         (normalizeSnapshot sampleRawNode)) ∧
    (takeChangeSnapshotHandler sampleChangeParams (some sampleRawNode)
        (assocSet [] (resolveBaselineKey sampleChangeParams)
          (normalizeSnapshot sampleRawNode))).1 =
      [noChangesMsg (resolveCompareKey sampleChangeParams)] :=
  takeChangeSnapshot_creates_missing_baseline sampleChangeParams
    sampleChangeParams sampleRawNode [] rfl rfl

/-- Witness for C9 at a concrete empty store with the opt-out parameter. -/
theorem baseline_created_despite_no_replace_witness :
    takeChangeSnapshotHandler sampleNoReplaceParams (some sampleRawNode) [] =
      ([if resolveCompareKey sampleNoReplaceParams =
            resolveBaselineKey sampleNoReplaceParams then
          noBaselineSameKeyMsg (resolveCompareKey sampleNoReplaceParams)
        else
          noBaselineOtherKeyMsg (resolveCompareKey sampleNoReplaceParams)
            (resolveBaselineKey sampleNoReplaceParams)],
       assocSet [] (resolveBaselineKey sampleNoReplaceParams)
         (normalizeSnapshot sampleRawNode)) :=
  baseline_created_despite_no_replace sampleNoReplaceParams sampleRawNode []
    rfl rfl

/-- C5: tokenizing `fill <uid> "Example text"` yields the tool token and
exactly the two positional tokens with quotes stripped and the inner space
preserved; every tokenization failure is the unterminated-quote decode
error, and a session line failing to tokenize is reported on the session
output while the loop continues with the following lines. -/
theorem tokenize_fill_and_unterminated_quote :
    tokenizeCliLine (("fill <uid> \"Example text\"").toList) =
      .ok [("fill").toList, ("<uid>").toList, ("Example text").toList] ∧
    (∀ (line e : Str), tokenizeCliLine line = .error e →
      e = unterminatedQuoteMsg) ∧
    (∀ (env : SessionEnv) (reg : List ToolSpec) (line e : Str)
      (rest : List Str),
      (jsTrim line).isEmpty = false →
      ¬(jsTrim line).head? = some '#' →
      ¬(jsTrim line).head? = some (Char.ofNat 123) →
      tokenizeCliLine (jsTrim line) = .error e →
      sessionHandleLine env reg line =
        .next [.error (("session").toList) e] ∧
      runSession env reg (line :: rest) =
        .error (("session").toList) e :: runSession env reg rest) := by
  refine ⟨rfl, ?_, ?_⟩
  · intro line e h
    exact tokenizeCliLineAux_error_eq line [] [] none false e h
  · intro env reg line e rest h1 h2 h3 h4
    have hs := sessionHandleLine_tokenize_error env reg line e h1 h2 h3 h4
    exact ⟨hs, runSession_cons_next env reg line rest _ hs⟩

/-- Witness for C5 at a concrete line with an unterminated quote. -/
theorem tokenize_fill_and_unterminated_quote_witness :
    sessionHandleLine sampleEnv sampleTools (("fill abc \"oops").toList) =
      .next [.error (("session").toList) unterminatedQuoteMsg] ∧
    runSession sampleEnv sampleTools ((("fill abc \"oops").toList) :: []) =
      .error (("session").toList) unterminatedQuoteMsg ::
        runSession sampleEnv sampleTools [] :=
  tokenize_fill_and_unterminated_quote.2.2 sampleEnv sampleTools
    (("fill abc \"oops").toList) unterminatedQuoteMsg [] rfl (by decide)
    (by decide) rfl

/-- C10: the CLI-line tokenizer drops empty tokens — a quoted empty string
produces no token at all (`fill <uid> ""` keeps only one positional token
after the tool name), and no tokenization result ever contains the empty
token. -/
theorem tokenizer_drops_empty_tokens :
    tokenizeCliLine (("fill <uid> \"\"").toList) =
      .ok [("fill").toList, ("<uid>").toList] ∧
    (∀ (line : Str) (toks : List Str), tokenizeCliLine line = .ok toks →
      ¬([] ∈ toks)) := by
  refine ⟨rfl, ?_⟩
  intro line toks h hmem
  exact tokenizeCliLineAux_ok_ne_nil line [] [] none false toks
    (by simp) h [] hmem rfl

/-- Witness for C10: the general no-empty-token property applied to the
concrete `fill <uid> ""` tokenization. -/
theorem tokenizer_drops_empty_tokens_witness :
    ¬([] ∈ [("fill").toList, ("<uid>").toList]) :=
  tokenizer_drops_empty_tokens.2 (("fill <uid> \"\"").toList)
    [("fill").toList, ("<uid>").toList] rfl

/-- C7: in session mode, blank lines and lines beginning with `#` are
skipped with no output and no tool execution, while JSON-mode input is not
silently ignored — the empty object reports the missing-tool-field decode
error and a malformed JSON object reports a JSON decode error — and in all
cases the loop continues with the following lines. -/
theorem comment_lines_and_json_decode_asymmetry :
    (∀ (env : SessionEnv) (reg : List ToolSpec) (line : Str),
      (jsTrim line).isEmpty = true →
      sessionHandleLine env reg line = .next []) ∧
    (∀ (env : SessionEnv) (reg : List ToolSpec) (line : Str),
      (jsTrim line).head? = some '#' →
      sessionHandleLine env reg line = .next []) ∧
    (∀ (env : SessionEnv) (reg : List ToolSpec) (rest : List Str),
      runSession env reg ((("\x7b\x7d").toList) :: rest) =
        .error (("session").toList) missingToolFieldMsg ::
          runSession env reg rest) ∧
    (∀ (env : SessionEnv) (reg : List ToolSpec) (rest : List Str),
      runSession env reg ((("\x7b\"tool\"").toList) :: rest) =
        .error (("session").toList) jsonUnexpectedTokenMsg ::
          runSession env reg rest) := by
  refine ⟨sessionHandleLine_blank, sessionHandleLine_hash, ?_, ?_⟩
  · intro env reg rest
    have h : sessionHandleLine env reg (("\x7b\x7d").toList) =
        .next [.error (("session").toList) missingToolFieldMsg] := rfl
    exact runSession_cons_next env reg _ rest _ h
  · intro env reg rest
    have h : sessionHandleLine env reg (("\x7b\"tool\"").toList) =
        .next [.error (("session").toList) jsonUnexpectedTokenMsg] := rfl
    exact runSession_cons_next env reg _ rest _ h

/-- Witness for C7 at a concrete blank line and a concrete comment line. -/
theorem comment_lines_and_json_decode_asymmetry_witness :
    sessionHandleLine sampleEnv sampleTools (("   ").toList) = .next [] ∧
    sessionHandleLine sampleEnv sampleTools (("# a comment").toList) =
      .next [] :=
  ⟨comment_lines_and_json_decode_asymmetry.1 sampleEnv sampleTools
      (("   ").toList) rfl,
   comment_lines_and_json_decode_asymmetry.2.1 sampleEnv sampleTools
      (("# a comment").toList) rfl⟩

/-- C8: a session command naming a tool absent from the registry (in either
input form) reports an error whose message names the unknown tool, and the
session loop stays alive and processes the following lines. -/
theorem unknown_tool_reported_session_alive :
    (∀ (env : SessionEnv) (reg : List ToolSpec) (name : Str) (raw : Params),
      findTool reg name = none →
      dispatchDecoded env reg (.cmd name raw) =
        .next [.error name (unknownToolMsg name)]) ∧
    (∀ rest : List Str,
      runSession sampleEnv sampleTools
          ((("\x7b\"tool\":\"nosuch\"\x7d").toList) :: rest) =
        .error (("nosuch").toList) (unknownToolMsg (("nosuch").toList)) ::
          runSession sampleEnv sampleTools rest) ∧
    (∀ rest : List Str,
      runSession sampleEnv sampleTools ((("nosuch-tool abc").toList) :: rest) =
        .error (("session").toList)
            (unknownToolMsg (("nosuch_tool").toList)) ::
          runSession sampleEnv sampleTools rest) := by
  refine ⟨?_, ?_, ?_⟩
  · intro env reg name raw h
    simp [dispatchDecoded, h]
  · intro rest
    have h : sessionHandleLine sampleEnv sampleTools
        (("\x7b\"tool\":\"nosuch\"\x7d").toList) =
        .next [.error (("nosuch").toList)
          (unknownToolMsg (("nosuch").toList))] := rfl
    exact runSession_cons_next sampleEnv sampleTools _ rest _ h
  · intro rest
    have h : sessionHandleLine sampleEnv sampleTools
        (("nosuch-tool abc").toList) =
        .next [.error (("session").toList)
          (unknownToolMsg (("nosuch_tool").toList))] := rfl
    exact runSession_cons_next sampleEnv sampleTools _ rest _ h

/-- Witness for C8: the registry-lookup failure path applied at a concrete
unknown name against the sample registry. -/
theorem unknown_tool_reported_session_alive_witness :
    dispatchDecoded sampleEnv sampleTools
        (.cmd (("nosuch").toList) []) =
      .next [.error (("nosuch").toList)
        (unknownToolMsg (("nosuch").toList))] :=
  unknown_tool_reported_session_alive.1 sampleEnv sampleTools
    (("nosuch").toList) [] rfl

/-- C1: the execution guard wrapped around each session command is released
on every exit path of the guarded body — parameter-validation failure,
thrown handler error, and successful completion — and is held by at most
one in-flight invocation: acquisition cannot proceed while the permit is
held. -/
theorem execution_guard_released_every_exit :
    (∀ (env : SessionEnv) (tool : ToolSpec) (raw : Params) (e : Str),
      zodObjectParse tool.schema raw = .error e →
      execWithGuard env tool raw true = some (true, .error tool.name e)) ∧
    (∀ (env : SessionEnv) (tool : ToolSpec) (raw parsed : Params) (e : Str),
      zodObjectParse tool.schema raw = .ok parsed →
      env.runTool tool.name parsed = .error e →
      execWithGuard env tool raw true = some (true, .error tool.name e)) ∧
    (∀ (env : SessionEnv) (tool : ToolSpec) (raw parsed : Params)
      (content : List Str),
      zodObjectParse tool.schema raw = .ok parsed →
      env.runTool tool.name parsed = .ok content →
      execWithGuard env tool raw true =
        some (true, .success tool.name content)) ∧
    (∀ (env : SessionEnv) (tool : ToolSpec) (raw : Params),
      execWithGuard env tool raw false = none) := by
  refine ⟨?_, ?_, ?_, ?_⟩ <;> intros <;>
    simp [execWithGuard, runGuardedCommand, *]

/-- Witness for C1: all three exit paths at concrete inputs, and the
blocked acquisition from the held state. -/
theorem execution_guard_released_every_exit_witness :
    execWithGuard sampleEnv waitForToolSpec
        [((("text").toList), JsValue.vnum 3)] true =
      some (true, .error (("wait_for").toList)
        ((("Invalid value for parameter: ").toList ++ ("text").toList))) ∧
    execWithGuard throwingEnv waitForToolSpec
        [((("text").toList), JsValue.vstr (("hi").toList))] true =
      some (true, .error (("wait_for").toList) (("boom").toList)) ∧
    execWithGuard sampleEnv waitForToolSpec
        [((("text").toList), JsValue.vstr (("hi").toList))] true =
      some (true, .success (("wait_for").toList) []) ∧
    execWithGuard sampleEnv waitForToolSpec [] false = none :=
  ⟨execution_guard_released_every_exit.1 sampleEnv waitForToolSpec
      [((("text").toList), JsValue.vnum 3)] _ rfl,
   execution_guard_released_every_exit.2.1 throwingEnv waitForToolSpec
      [((("text").toList), JsValue.vstr (("hi").toList))]
      [((("text").toList), JsValue.vstr (("hi").toList))] _ rfl rfl,
   execution_guard_released_every_exit.2.2.1 sampleEnv waitForToolSpec
      [((("text").toList), JsValue.vstr (("hi").toList))]
      [((("text").toList), JsValue.vstr (("hi").toList))] [] rfl rfl,
   execution_guard_released_every_exit.2.2.2 sampleEnv waitForToolSpec []⟩

/-- C6: a boolean-shaped CLI parameter supplied as `--flag` decodes to
true, as `--no-flag` decodes to false, and a parameter omitted from the raw
input whose schema declares a default is present with that default value in
the validated parameters. -/
theorem boolean_flag_decoding :
    (∀ (tool : ToolSpec) (key : Str) (sch : ZodTy),
      assocGet tool.schema key = some sch →
      zodTyName (unwrapZodSchema sch).schema = .tboolean →
      key ≠ [] → ¬('-' ∈ key) → ¬('=' ∈ key) →
      parseToolParamsFromCliTokens tool [tool.name, '-' :: '-' :: key] =
        .ok [(key, .vbool true)]) ∧
    (∀ (tool : ToolSpec) (key : Str) (sch : ZodTy),
      assocGet tool.schema key = some sch →
      zodTyName (unwrapZodSchema sch).schema = .tboolean →
      key ≠ [] → ¬('-' ∈ key) →
      parseToolParamsFromCliTokens tool
        [tool.name, '-' :: '-' :: 'n' :: 'o' :: '-' :: key] =
        .ok [(key, .vbool false)]) ∧
    (∀ (schema : List (Str × ZodTy)) (raw : Params) (key : Str)
      (sch : ZodTy) (d : JsValue) (parsed : Params),
      assocGet schema key = some sch →
      (unwrapZodSchema sch).defaultValue = some d →
      assocGet raw key = none →
      zodObjectParse schema raw = .ok parsed →
      assocGet parsed key = some d) :=
  ⟨parse_single_bool_flag_true, parse_single_bool_flag_false,
   zodObjectParse_default_filled⟩

/-- Witness for C6 at the concrete boolean parameters of the sample
screenshot and snapshot schemas. -/
theorem boolean_flag_decoding_witness :
    parseToolParamsFromCliTokens takeScreenshotToolSpec
        [takeScreenshotToolSpec.name, '-' :: '-' :: (("fullPage").toList)] =
      .ok [((("fullPage").toList), .vbool true)] ∧
    parseToolParamsFromCliTokens takeScreenshotToolSpec
        [takeScreenshotToolSpec.name,
         '-' :: '-' :: 'n' :: 'o' :: '-' :: (("fullPage").toList)] =
      .ok [((("fullPage").toList), .vbool false)] ∧
    assocGet [((("verbose").toList), JsValue.vbool false)]
        (("verbose").toList) = some (JsValue.vbool false) :=
  ⟨boolean_flag_decoding.1 takeScreenshotToolSpec (("fullPage").toList)
      (ZodTy.zoptional ZodTy.zboolean) rfl rfl (by decide) (by decide)
      (by decide),
   boolean_flag_decoding.2.1 takeScreenshotToolSpec (("fullPage").toList)
      (ZodTy.zoptional ZodTy.zboolean) rfl rfl (by decide) (by decide),
   boolean_flag_decoding.2.2 takeSnapshotToolSpec.schema []
      (("verbose").toList) (ZodTy.zdefault (JsValue.vbool false)
        ZodTy.zboolean) (JsValue.vbool false)
      [((("verbose").toList), JsValue.vbool false)] rfl rfl rfl rfl⟩

end ChromeCli
